import Mathlib

/-!
Verification development for the rust-gantt-app repository.

Shallow embedding conventions:
* Calendar dates (`chrono::NaiveDate`) are modelled as `Int`, counting days;
  `date + Duration::days d` becomes integer addition.
* Task ids (`uuid::Uuid`) are modelled as `Nat`; `Uuid::nil()` is `0`, and
  factories receive the freshly generated id as an argument.
* Screen coordinates and `f32` quantities are modelled as `ℚ`.  The literal
  `0.45` from the gesture classifier is written `9/20`, `10.0` (the routing
  stub) as `10`, and so on; all concrete inputs used in theorems are chosen
  far from representation boundaries, where `f32` and `ℚ` agree.
* The `Task` struct in src/src/model/task.rs predates the rest of the code:
  app.rs and ui/gantt_chart.rs read `parent_id`, `collapsed` and call
  `Project::recalculate_parent_dates`, `Project::sort_tasks_grouped`,
  `Task::children_ids`, `Task::has_children` and `UndoHistory`, none of which
  appear under src/.  Fields and functions that are missing are modelled from
  the spec and marked as such in their doc comments.
* The source field `end` is a Lean keyword and is rendered `stop` here.
-/

namespace Gantt

/-- Dependency kind, from src/src/model/task.rs (`DependencyKind`). -/
inductive DependencyKind where
  | FinishToStart
  | StartToStart
  | FinishToFinish
  | StartToFinish
deriving DecidableEq, Repr

/-- A dependency link between two tasks, from src/src/model/task.rs
(`Dependency`): an ordered pair of task ids plus a kind. -/
structure Dependency where
  from_task : Nat
  to_task : Nat
  kind : DependencyKind
deriving DecidableEq, Repr

/-- A task, from src/src/model/task.rs (`Task`), with the fields used by the
claims.  `parentId` and `collapsed` are read throughout app.rs and
ui/gantt_chart.rs but are missing from the struct under src/; they are
modelled from the spec (optional single-level back-reference, collapse flag).
Display color, group and priority play no role in any claim and are omitted. -/
structure Task where
  id : Nat
  name : String
  start : Int
  stop : Int
  progress : ℚ
  parentId : Option Nat
  isMilestone : Bool
  collapsed : Bool
deriving DecidableEq, Repr

/-- Task factory, from src/src/model/task.rs (`Task::new`): stores the given
start and end dates as they are, progress 0, no milestone flag.  The fresh
uuid is passed in as `id`. -/
def Task.new (id : Nat) (name : String) (start stop : Int) : Task :=
  { id := id, name := name, start := start, stop := stop, progress := 0,
    parentId := none, isMilestone := false, collapsed := false }

/-- Milestone factory, from src/src/model/task.rs (`Task::new_milestone`):
start and end are both the given date and the milestone flag is set. -/
def Task.new_milestone (id : Nat) (name : String) (date : Int) : Task :=
  { id := id, name := name, start := date, stop := date, progress := 0,
    parentId := none, isMilestone := true, collapsed := false }

/-- Modelled from the spec: `Task::children_ids` is called from
`GanttApp::delete_task` (src/src/app.rs) but the `Task` impl under src/
predates the hierarchy feature.  Per the spec a child of a task is any task
whose `parent_id` back-references it; app.rs maps the result to ids itself. -/
def Task.children_ids (parent : Task) (tasks : List Task) : List Task :=
  tasks.filter (fun c => decide (c.parentId = some parent.id))

/-- Modelled from the spec: `Task::has_children` is called from
ui/gantt_chart.rs and ui/task_editor.rs but is missing under src/.  A task is
a parent (summary task) when at least one task back-references it. -/
def Task.has_children (t : Task) (tasks : List Task) : Bool :=
  tasks.any (fun c => decide (c.parentId = some t.id))

/-- Children of the task with the given id, the unit the rollup engine works
on (spec section 4.1). -/
def childrenOf (tasks : List Task) (pid : Nat) : List Task :=
  tasks.filter (fun c => decide (c.parentId = some pid))

/-- One fold step of an optional minimum over `Int`. -/
def ominStep (x : Int) : Option Int → Option Int
  | none => some x
  | some y => some (min x y)

/-- Optional minimum of a list of integers: `none` on the empty list. -/
def omin (l : List Int) : Option Int := l.foldr ominStep none

/-- One fold step of an optional maximum over `Int`. -/
def omaxStep (x : Int) : Option Int → Option Int
  | none => some x
  | some y => some (max x y)

/-- Optional maximum of a list of integers: `none` on the empty list. -/
def omax (l : List Int) : Option Int := l.foldr omaxStep none

/-- Modelled from the spec: `Project::recalculate_parent_dates` is called
throughout src/src/app.rs but `Project` under src/ has no such method.  Spec
sections 3 and 4.1: for every task with at least one child, start becomes the
minimum of the children's starts, end the maximum of the children's ends, and
progress the duration-weighted mean of the children's progress (weights are
durations in days, as in the spec's worked example); childless tasks are left
alone.  Durations summing to zero make the mean's denominator zero, a case
the spec leaves open; `ℚ` division then yields 0/0 = 0 and we keep that
convention.  This step rewrites one task from the full current sequence. -/
def rollup (tasks : List Task) (t : Task) : Task :=
  if childrenOf tasks t.id = [] then t
  else
    { t with
      start := (omin ((childrenOf tasks t.id).map Task.start)).getD t.start,
      stop := (omax ((childrenOf tasks t.id).map Task.stop)).getD t.stop,
      progress :=
        ((childrenOf tasks t.id).map (fun c => ((c.stop - c.start : Int) : ℚ) * c.progress)).sum
          / ((((childrenOf tasks t.id).map (fun c => c.stop - c.start)).sum : Int) : ℚ) }

/-- Modelled from the spec: `Project::recalculate_parent_dates` recomputes
every summary task from the current task sequence, a pure function of that
sequence (spec section 4.1). -/
def recalculate_parent_dates (tasks : List Task) : List Task :=
  tasks.map (rollup tasks)

/-- Modelled from the spec: `Project::sort_tasks_grouped` is called from
src/src/app.rs but is missing under src/.  Spec section 4.2: a stable re-sort
that keeps every parent immediately followed by its children in their
existing relative order; tasks whose parent reference does not resolve to a
top-level task are kept at the end so membership is preserved. -/
def sort_tasks_grouped (tasks : List Task) : List Task :=
  let tops := tasks.filter (fun t => decide (t.parentId = none))
  let orphan (t : Task) : Bool :=
    match t.parentId with
    | none => false
    | some pid => ! tasks.any (fun p => decide (p.id = pid ∧ p.parentId = none))
  (tops.flatMap (fun p => p :: tasks.filter (fun c => decide (c.parentId = some p.id))))
    ++ tasks.filter orphan

/-- One undo snapshot: immutable copies of the task and dependency sequences
(spec section 3, UndoHistory). -/
structure Snapshot where
  tasks : List Task
  dependencies : List Dependency
deriving DecidableEq, Repr

/-- Modelled from the spec: the configured maximum depth of each history
stack (spec section 3: bounded, oldest entries evicted). -/
def maxUndoDepth : Nat := 50

/-- Modelled from the spec: `UndoHistory` is used by src/src/app.rs but is
missing under src/.  Two bounded stacks of snapshots. -/
structure UndoHistory where
  undoStack : List Snapshot
  redoStack : List Snapshot
deriving DecidableEq, Repr

/-- Modelled from the spec: `UndoHistory::push` clones the given state onto
the undo stack (evicting the oldest entry beyond the depth bound) and clears
the redo stack (spec section 4.6). -/
def UndoHistory.push (h : UndoHistory) (tasks : List Task) (deps : List Dependency) :
    UndoHistory :=
  { undoStack := (Snapshot.mk tasks deps :: h.undoStack).take maxUndoDepth,
    redoStack := [] }

/-- The slice of `GanttApp` state (src/src/app.rs) that the claims touch. -/
structure AppState where
  tasks : List Task
  dependencies : List Dependency
  history : UndoHistory
  selected : Option Nat
deriving DecidableEq, Repr

/-- Model of `Uuid::nil()` used by `delete_task`'s selection check. -/
def nilId : Nat := 0

/-- Default name of a task created through the dialog with an empty name
field (src/src/app.rs, `create_task_from_dialog`). -/
def defaultTaskName : String := "New Task"

/-- Name given to tasks created by `add_subtask` (src/src/app.rs). -/
def defaultSubtaskName : String := "New Subtask"

/-- From src/src/app.rs (`create_task_from_dialog`): an end date earlier than
the start is replaced by start + 7 days, the task is built by the matching
factory, the pre-mutation state is pushed onto the undo history, the task is
appended and the sequence re-grouped.  Palette color assignment is
presentation-only and omitted. -/
def create_task_from_dialog (s : AppState) (freshId : Nat) (name0 : String)
    (startDate endDate : Int) (isMilestone : Bool) : AppState :=
  let name := if name0 = "" then defaultTaskName else name0
  let start := startDate
  let stop := if startDate ≤ endDate then endDate else start + 7
  let task := if isMilestone then Task.new_milestone freshId name start
              else Task.new freshId name start stop
  { s with history := s.history.push s.tasks s.dependencies,
           tasks := sort_tasks_grouped (s.tasks ++ [task]) }

/-- Index of the last element satisfying a predicate, as
`Iterator::rposition` in `GanttApp::add_subtask`. -/
def rposition (p : Task → Bool) (l : List Task) : Option Nat :=
  (l.reverse.findIdx? p).map (fun i => l.length - 1 - i)

/-- From src/src/app.rs (`add_subtask`): a new subtask under the given
parent, dated inside the parent, pushed after the parent's last child; the
pre-mutation state is pushed onto the undo history first, the new task is
selected and the rollup re-run. -/
def add_subtask (s : AppState) (parentId freshId : Nat) (today : Int) : AppState :=
  match s.tasks.find? (fun t => decide (t.id = parentId)) with
  | none => s
  | some parent =>
    let start := max parent.start today
    let stop := max parent.stop (start + 7)
    let t := { Task.new freshId defaultSubtaskName start stop with parentId := some parentId }
    let history := s.history.push s.tasks s.dependencies
    let insertPos := ((rposition
        (fun u => decide (u.parentId = some parentId ∨ u.id = parentId)) s.tasks).map
        (fun i => i + 1)).getD s.tasks.length
    { s with history := history,
             tasks := recalculate_parent_dates (s.tasks.insertIdx insertPos t),
             selected := some freshId }

/-- The `children_ids` collection computed at the top of
`GanttApp::delete_task` (src/src/app.rs): ids of the children of the task
with the given id, empty when the id is absent. -/
def delete_children_ids (tasks : List Task) (id : Nat) : List Nat :=
  ((tasks.find? (fun t => decide (t.id = id))).map
    (fun parent => (parent.children_ids tasks).map Task.id)).getD []

/-- From src/src/app.rs (`delete_task`): push the pre-mutation state, drop
the task and its direct children from the task sequence, drop every
dependency touching the task or a child, re-run the rollup, and clear the
selection when it pointed at the task or a child. -/
def delete_task (s : AppState) (id : Nat) : AppState :=
  let history := s.history.push s.tasks s.dependencies
  let childrenIds := delete_children_ids s.tasks id
  let tasks1 := s.tasks.filter (fun t => decide (t.id ≠ id ∧ t.parentId ≠ some id))
  let deps1 := s.dependencies.filter (fun d =>
    decide (d.from_task ≠ id ∧ d.to_task ≠ id ∧
      d.from_task ∉ childrenIds ∧ d.to_task ∉ childrenIds))
  let selected1 := if s.selected = some id ∨ (s.selected.getD nilId) ∈ childrenIds
    then none else s.selected
  { tasks := recalculate_parent_dates tasks1, dependencies := deps1,
    history := history, selected := selected1 }

/-- From src/src/app.rs (the `pending_add_dependency` and
`chart_interaction.new_dependency` handlers): when no dependency with the
same ordered (from, to) pair exists, push the pre-mutation state and append
the new dependency; otherwise do nothing. -/
def apply_new_dependency (s : AppState) (dep : Dependency) : AppState :=
  if s.dependencies.any (fun d =>
      decide (d.from_task = dep.from_task ∧ d.to_task = dep.to_task)) then s
  else
    { s with history := s.history.push s.tasks s.dependencies,
             dependencies := s.dependencies ++ [dep] }

/-- From src/src/app.rs (the `dep_remove` and
`chart_interaction.remove_dependency` handlers): push the pre-mutation state,
then retain every dependency except the given ordered pair. -/
def apply_remove_dependency (s : AppState) (f t : Nat) : AppState :=
  { s with history := s.history.push s.tasks s.dependencies,
           dependencies := s.dependencies.filter (fun d =>
             decide (¬(d.from_task = f ∧ d.to_task = t))) }

/-- From src/src/app.rs (the `editor_changed` handler, together with
`show_task_editor` which mutates the selected task in place): the edited
field update `f` is applied to the selected task, then the rollup is re-run
and the project marked dirty.  No undo-history call appears on this path. -/
def editor_edit (s : AppState) (tid : Nat) (f : Task → Task) : AppState :=
  { s with
    tasks := recalculate_parent_dates (s.tasks.map (fun t => if t.id = tid then f t else t)) }

/-- From src/src/app.rs (the `chart_interaction.changed` handler): the chart
has already mutated the task sequence in place during the drag frame; the app
re-runs the rollup and marks the project dirty.  No undo-history call appears
on this path. -/
def chart_changed_commit (s : AppState) (tasksAfterDrag : List Task) : AppState :=
  { s with tasks := recalculate_parent_dates tasksAfterDrag }

/-- Per-handle drag bookkeeping, from src/src/ui/gantt_chart.rs
(`DragSnapshot`): the task dates and the pointer position at gesture start. -/
structure DragSnapshot where
  start : Int
  stop : Int
  startPointerX : ℚ
  startPointerY : ℚ
deriving DecidableEq, Repr

/-- Rounding to the nearest integer with ties away from zero, the behaviour
of Rust's `f32::round` used in `drag_days`. -/
def rustRound (q : ℚ) : Int :=
  if 0 ≤ q then ⌊q + 1 / 2⌋ else ⌈q - 1 / 2⌉

/-- From src/src/ui/gantt_chart.rs (`drag_days`): a horizontal pixel delta
converted to a whole-day delta, `(delta_x / pixels_per_day).round()`. -/
def drag_days (deltaX pixelsPerDay : ℚ) : Int :=
  rustRound (deltaX / pixelsPerDay)

/-- From src/src/ui/gantt_chart.rs, the `is_reorder_drag` expression
evaluated on every dragged frame: the gesture counts as a vertical reorder
when the cumulative `|Δy|` exceeds 0.45 of the row height and exceeds the
cumulative `|Δx|`. -/
def is_reorder_drag (deltaX deltaY rowHeight : ℚ) : Bool :=
  decide (|deltaY| > rowHeight * (9 / 20) ∧ |deltaY| > |deltaX|)

/-- From src/src/ui/gantt_chart.rs (`row_index_from_pointer_y`): the visible
row index under a pointer y, clamped into range; `headerH` stands for the
theme's `header_height()`. -/
def row_index_from_pointer_y (pointerY originY headerH rowHeight rowPadding : ℚ)
    (taskCount : Nat) : Option Nat :=
  if taskCount = 0 then none
  else
    let rowTop := originY + headerH + rowPadding
    let rowSpan := rowHeight + rowPadding
    if rowSpan ≤ 0 then none
    else
      let raw : Int := ⌊(pointerY - rowTop) / rowSpan⌋
      some (Int.toNat (max 0 (min raw ((taskCount : Int) - 1))))

/-- Outcome of one dragged frame of the move handle: either the vertical
branch (with the clamped target row, when one resolves) or the horizontal
branch carrying the rewritten task. -/
inductive MoveFrame where
  | reorder (target : Option Nat)
  | dateEdit (task : Task)
deriving DecidableEq, Repr

/-- Whether a frame landed in the vertical branch. -/
def MoveFrame.isReorder : MoveFrame → Bool
  | .reorder _ => true
  | .dateEdit _ => false

/-- One dragged frame of the move handle, from src/src/ui/gantt_chart.rs
(the `bar_response.dragged()` arm): the cumulative deltas against the gesture
snapshot are classified by `is_reorder_drag`; the vertical branch resolves a
target row from the pointer y, the horizontal branch rewrites both dates from
the snapshot by the same whole-day delta. -/
def moveDragFrame (snap : DragSnapshot) (ptrX ptrY : ℚ)
    (rowHeight rowPadding headerH originY ppd : ℚ) (visCount : Nat) (t : Task) : MoveFrame :=
  let deltaX := ptrX - snap.startPointerX
  let deltaY := ptrY - snap.startPointerY
  if is_reorder_drag deltaX deltaY rowHeight then
    .reorder (row_index_from_pointer_y ptrY originY headerH rowHeight rowPadding visCount)
  else
    let dayDelta := drag_days deltaX ppd
    .dateEdit { t with start := snap.start + dayDelta, stop := snap.stop + dayDelta }

/-- One dragged frame of the left resize handle, from src/src/ui/gantt_chart.rs
(the `left_response.dragged()` arm): the snapshot start shifted by the
whole-day delta, clamped at the snapshot end, and the end re-clamped above
the resulting start. -/
def leftResizeFrame (snap : DragSnapshot) (ptrX ppd : ℚ) (t : Task) : Task :=
  let dayDelta := drag_days (ptrX - snap.startPointerX) ppd
  let newStart := snap.start + dayDelta
  let start1 := min newStart snap.stop
  { t with start := start1, stop := max snap.stop start1 }

/-- One dragged frame of the right resize handle, from
src/src/ui/gantt_chart.rs (the `right_response.dragged()` arm): the snapshot
end shifted by the whole-day delta, clamped at the snapshot start; the start
is not written. -/
def rightResizeFrame (snap : DragSnapshot) (ptrX ppd : ℚ) (t : Task) : Task :=
  let dayDelta := drag_days (ptrX - snap.startPointerX) ppd
  let newEnd := snap.stop + dayDelta
  { t with stop := max newEnd snap.start }

/-- One dragged frame of a milestone, from src/src/ui/gantt_chart.rs (the
milestone `response.dragged()` arm): same classification as the move handle;
the horizontal branch moves the start by the whole-day delta and pins the end
to the start. -/
def milestoneDragFrame (snap : DragSnapshot) (ptrX ptrY : ℚ)
    (rowHeight rowPadding headerH originY ppd : ℚ) (visCount : Nat) (t : Task) : MoveFrame :=
  let deltaX := ptrX - snap.startPointerX
  let deltaY := ptrY - snap.startPointerY
  if is_reorder_drag deltaX deltaY rowHeight then
    .reorder (row_index_from_pointer_y ptrY originY headerH rowHeight rowPadding visCount)
  else
    let dayDelta := drag_days deltaX ppd
    let start1 := snap.start + dayDelta
    .dateEdit { t with start := start1, stop := start1 }

/-- A screen point, modelling `egui::Pos2` with rational coordinates. -/
structure P where
  x : ℚ
  y : ℚ
deriving DecidableEq, Repr

/-- An axis-aligned screen rectangle, modelling `egui::Rect`. -/
structure Rect where
  minX : ℚ
  minY : ℚ
  maxX : ℚ
  maxY : ℚ
deriving DecidableEq, Repr

/-- Point membership, modelling `egui::Rect::contains` (inclusive bounds). -/
def Rect.containsP (r : Rect) (p : P) : Bool :=
  decide (r.minX ≤ p.x ∧ p.x ≤ r.maxX ∧ r.minY ≤ p.y ∧ p.y ≤ r.maxY)

/-- The fixed stub length of dependency routes, from
src/src/ui/gantt_chart.rs (`const STUB: f32 = 10.0`). -/
def STUB : ℚ := 10

/-- From src/src/ui/gantt_chart.rs (`dependency_route_points`): the ordered
polyline for a dependency between endpoint `f` (exit) and `t` (enter),
per kind.  Corner rounding is drawing-only and happens downstream of these
logical route points. -/
def dependency_route_points (f t : P) (kind : DependencyKind) : List P :=
  match kind with
  | .FinishToStart =>
    let exitX := f.x + STUB
    let enterX := t.x - STUB
    if exitX ≤ enterX then
      if |f.y - t.y| < 1 then [f, t]
      else [f, ⟨exitX, f.y⟩, ⟨exitX, t.y⟩, t]
    else
      if |f.y - t.y| < 1 then
        let loopY := f.y + 8
        [f, ⟨exitX, f.y⟩, ⟨exitX, loopY⟩, ⟨enterX, loopY⟩, ⟨enterX, t.y⟩, t]
      else
        let gutterY := (f.y + t.y) / 2
        [f, ⟨exitX, f.y⟩, ⟨exitX, gutterY⟩, ⟨enterX, gutterY⟩, ⟨enterX, t.y⟩, t]
  | .StartToStart =>
    let laneX := max (min f.x t.x - STUB) 2
    if |f.y - t.y| < 1 then [f, ⟨laneX, f.y⟩, t]
    else [f, ⟨laneX, f.y⟩, ⟨laneX, t.y⟩, t]
  | .FinishToFinish =>
    let laneX := max f.x t.x + STUB
    if |f.y - t.y| < 1 then [f, ⟨laneX, f.y⟩, t]
    else [f, ⟨laneX, f.y⟩, ⟨laneX, t.y⟩, t]
  | .StartToFinish =>
    let exitX := f.x - STUB
    let enterX := t.x + STUB
    if exitX ≥ enterX then
      let midX := t.x + (f.x - t.x) / 2
      if |f.y - t.y| < 1 then [f, t]
      else [f, ⟨midX, f.y⟩, ⟨midX, t.y⟩, t]
    else
      if |f.y - t.y| < 1 then
        let loopY := f.y + 8
        [f, ⟨exitX, f.y⟩, ⟨exitX, loopY⟩, ⟨enterX, loopY⟩, ⟨enterX, t.y⟩, t]
      else
        let gutterY := (f.y + t.y) / 2
        [f, ⟨exitX, f.y⟩, ⟨exitX, gutterY⟩, ⟨enterX, gutterY⟩, ⟨enterX, t.y⟩, t]

/-- Transient link-creation drag state, from src/src/ui/gantt_chart.rs
(`LinkDragState`); the anchor point is drawing-only and omitted. -/
structure LinkDragState where
  from_task : Nat
deriving DecidableEq, Repr

/-- Whether the pointer is over the stored bar rectangle of a task id, as the
release handler tests `task_positions` entries with `Rect::contains`. -/
def overBar (positions : Nat → Option Rect) (tid : Nat) (ptr : P) : Bool :=
  match positions tid with
  | some r => r.containsP ptr
  | none => false

/-- From src/src/ui/gantt_chart.rs (the `primary_released` handler): scan the
task sequence in order for the first task other than the origin whose bar
contains the pointer; a hit yields a FinishToStart dependency from the origin
to it. -/
def link_release_dependency (tasks : List Task) (positions : Nat → Option Rect)
    (st : LinkDragState) (ptr : P) : Option Dependency :=
  (tasks.find? (fun task =>
      decide (task.id ≠ st.from_task) && overBar positions task.id ptr)).map
    (fun task => Dependency.mk st.from_task task.id DependencyKind.FinishToStart)

/-- Whether a dependency with the same ordered (from, to) pair already
exists, the duplicate test of src/src/app.rs. -/
def dupPair (deps : List Dependency) (dep : Dependency) : Bool :=
  deps.any (fun d => decide (d.from_task = dep.from_task ∧ d.to_task = dep.to_task))

/-- The dependency list after a link-release frame: the chart's emitted
dependency (if any) filtered through the app's duplicate check
(src/src/app.rs, `chart_interaction.new_dependency` handler). -/
def link_release_apply (tasks : List Task) (positions : Nat → Option Rect)
    (st : LinkDragState) (ptr : P) (deps : List Dependency) : List Dependency :=
  match link_release_dependency tasks positions st ptr with
  | some dep => if dupPair deps dep then deps else deps ++ [dep]
  | none => deps

/-- The full `primary_released` step of src/src/ui/gantt_chart.rs combined
with the app's handler: whatever happens, the transient link state is
removed; with no stored state or no pointer the gesture is discarded. -/
def on_primary_released (tasks : List Task) (positions : Nat → Option Rect)
    (st? : Option LinkDragState) (ptr? : Option P) (deps : List Dependency) :
    List Dependency × Option LinkDragState :=
  match st? with
  | none => (deps, none)
  | some st =>
    match ptr? with
    | none => (deps, none)
    | some ptr => (link_release_apply tasks positions st ptr deps, none)

/-! Helper lemmas about the optional minimum and maximum. -/

theorem ominStep_comm (a b : Int) (m : Option Int) :
    ominStep a (ominStep b m) = ominStep b (ominStep a m) := by
  cases m <;> simp [ominStep, min_comm, min_left_comm]

theorem omaxStep_comm (a b : Int) (m : Option Int) :
    omaxStep a (omaxStep b m) = omaxStep b (omaxStep a m) := by
  cases m <;> simp [omaxStep, max_comm, max_left_comm]

theorem omin_perm {l₁ l₂ : List Int} (h : l₁.Perm l₂) : omin l₁ = omin l₂ := by
  induction h with
  | nil => rfl
  | cons x _ ih => simp only [omin, List.foldr] at ih ⊢; rw [ih]
  | swap x y l => exact ominStep_comm y x (omin l)
  | trans _ _ ih₁ ih₂ => exact ih₁.trans ih₂

theorem omax_perm {l₁ l₂ : List Int} (h : l₁.Perm l₂) : omax l₁ = omax l₂ := by
  induction h with
  | nil => rfl
  | cons x _ ih => simp only [omax, List.foldr] at ih ⊢; rw [ih]
  | swap x y l => exact omaxStep_comm y x (omax l)
  | trans _ _ ih₁ ih₂ => exact ih₁.trans ih₂

theorem omin_eq_none {l : List Int} (h : omin l = none) : l = [] := by
  cases l with
  | nil => rfl
  | cons a as =>
    rw [omin, List.foldr] at h
    cases has : List.foldr ominStep none as <;> rw [has] at h <;> simp [ominStep] at h

theorem omax_eq_none {l : List Int} (h : omax l = none) : l = [] := by
  cases l with
  | nil => rfl
  | cons a as =>
    rw [omax, List.foldr] at h
    cases has : List.foldr omaxStep none as <;> rw [has] at h <;> simp [omaxStep] at h

theorem omin_spec {l : List Int} {m : Int} (h : omin l = some m) :
    m ∈ l ∧ ∀ x ∈ l, m ≤ x := by
  induction l generalizing m with
  | nil => simp [omin] at h
  | cons a as ih =>
    rw [omin, List.foldr] at h
    cases has : omin as with
    | none =>
      rw [omin] at has; rw [has] at h
      simp only [ominStep, Option.some.injEq] at h
      subst h
      have hnil : as = [] := omin_eq_none has
      subst hnil
      simp
    | some y =>
      rw [omin] at has; rw [has] at h
      simp only [ominStep, Option.some.injEq] at h
      subst h
      obtain ⟨hmem, hle⟩ := ih has
      constructor
      · rcases min_choice a y with hc | hc
        · rw [hc]; exact List.mem_cons_self a as
        · rw [hc]; exact List.mem_cons_of_mem a hmem
      · intro x hx
        rcases List.mem_cons.mp hx with rfl | hx
        · exact min_le_left _ _
        · exact le_trans (min_le_right a y) (hle x hx)

theorem omax_spec {l : List Int} {m : Int} (h : omax l = some m) :
    m ∈ l ∧ ∀ x ∈ l, x ≤ m := by
  induction l generalizing m with
  | nil => simp [omax] at h
  | cons a as ih =>
    rw [omax, List.foldr] at h
    cases has : omax as with
    | none =>
      rw [omax] at has; rw [has] at h
      simp only [omaxStep, Option.some.injEq] at h
      subst h
      have hnil : as = [] := omax_eq_none has
      subst hnil
      simp
    | some y =>
      rw [omax] at has; rw [has] at h
      simp only [omaxStep, Option.some.injEq] at h
      subst h
      obtain ⟨hmem, hle⟩ := ih has
      constructor
      · rcases max_choice a y with hc | hc
        · rw [hc]; exact List.mem_cons_self a as
        · rw [hc]; exact List.mem_cons_of_mem a hmem
      · intro x hx
        rcases List.mem_cons.mp hx with rfl | hx
        · exact le_max_left _ _
        · exact le_trans (hle x hx) (le_max_right a y)

theorem childrenOf_perm {ts ts' : List Task} (h : ts.Perm ts') (pid : Nat) :
    (childrenOf ts pid).Perm (childrenOf ts' pid) := h.filter _

theorem rollup_perm {ts ts' : List Task} (h : ts.Perm ts') (t : Task) :
    rollup ts t = rollup ts' t := by
  have hcs : (childrenOf ts t.id).Perm (childrenOf ts' t.id) := childrenOf_perm h t.id
  by_cases hc : childrenOf ts t.id = []
  · have hc' : childrenOf ts' t.id = [] := (hc ▸ hcs).symm.eq_nil
    rw [rollup, rollup, if_pos hc, if_pos hc']
  · have hc' : childrenOf ts' t.id ≠ [] := fun e => hc (e ▸ hcs).eq_nil
    rw [rollup, rollup, if_neg hc, if_neg hc',
      omin_perm (hcs.map Task.start), omax_perm (hcs.map Task.stop),
      (hcs.map (fun c => ((c.stop - c.start : Int) : ℚ) * c.progress)).sum_eq,
      (hcs.map (fun c => c.stop - c.start)).sum_eq]

/-- C1: after `recalculate_parent_dates` runs, a task with at least one child
carries exactly the minimum of its children's start dates, the maximum of
their end dates, and the duration-weighted mean of their progress (sum of
duration-times-progress over total duration), and the recomputed values are
the same for any permutation of the task sequence. -/
theorem C1_rollup_correct (ts ts' : List Task) (hperm : ts.Perm ts') (i : Nat)
    (t t' : Task) (hget : ts[i]? = some t)
    (hres : (recalculate_parent_dates ts)[i]? = some t')
    (hc : childrenOf ts t.id ≠ []) :
    (t'.start ∈ (childrenOf ts t.id).map Task.start ∧
      ∀ s ∈ (childrenOf ts t.id).map Task.start, t'.start ≤ s) ∧
    (t'.stop ∈ (childrenOf ts t.id).map Task.stop ∧
      ∀ e ∈ (childrenOf ts t.id).map Task.stop, e ≤ t'.stop) ∧
    t'.progress =
      ((childrenOf ts t.id).map (fun c => ((c.stop - c.start : Int) : ℚ) * c.progress)).sum
        / ((((childrenOf ts t.id).map (fun c => c.stop - c.start)).sum : Int) : ℚ) ∧
    rollup ts t = rollup ts' t := by
  have ht' : rollup ts t = t' := by
    rw [recalculate_parent_dates, List.getElem?_map (rollup ts) ts i, hget] at hres
    exact Option.some.inj hres
  have hr : rollup ts t =
      { t with
        start := (omin ((childrenOf ts t.id).map Task.start)).getD t.start,
        stop := (omax ((childrenOf ts t.id).map Task.stop)).getD t.stop,
        progress :=
          ((childrenOf ts t.id).map (fun c => ((c.stop - c.start : Int) : ℚ) * c.progress)).sum
            / ((((childrenOf ts t.id).map (fun c => c.stop - c.start)).sum : Int) : ℚ) } := by
    rw [rollup, if_neg hc]
  obtain ⟨mn, hmn⟩ : ∃ m, omin ((childrenOf ts t.id).map Task.start) = some m := by
    cases h0 : omin ((childrenOf ts t.id).map Task.start) with
    | none => exact absurd (List.map_eq_nil_iff.mp (omin_eq_none h0)) hc
    | some m => exact ⟨m, rfl⟩
  obtain ⟨mx, hmx⟩ : ∃ m, omax ((childrenOf ts t.id).map Task.stop) = some m := by
    cases h0 : omax ((childrenOf ts t.id).map Task.stop) with
    | none => exact absurd (List.map_eq_nil_iff.mp (omax_eq_none h0)) hc
    | some m => exact ⟨m, rfl⟩
  have hstart : t'.start = mn := by rw [← ht', hr]; simp [hmn]
  have hstop : t'.stop = mx := by rw [← ht', hr]; simp [hmx]
  refine ⟨?_, ?_, ?_, rollup_perm hperm t⟩
  · rw [hstart]; exact omin_spec hmn
  · rw [hstop]; exact omax_spec hmx
  · rw [← ht', hr]

/-- Concrete three-task project used to witness C1: a parent (id 1) with the
spec's worked-example children, four days at full progress and five days at
zero progress. -/
def c1tasks : List Task :=
  [Task.new 1 "P" 100 100,
   { Task.new 2 "A" 0 4 with parentId := some 1, progress := 1 },
   { Task.new 3 "B" 4 9 with parentId := some 1 }]

theorem C1_rollup_correct_witness :
    ((rollup c1tasks (Task.new 1 "P" 100 100)).start ∈
        (childrenOf c1tasks 1).map Task.start ∧
      ∀ s ∈ (childrenOf c1tasks 1).map Task.start,
        (rollup c1tasks (Task.new 1 "P" 100 100)).start ≤ s) ∧
    ((rollup c1tasks (Task.new 1 "P" 100 100)).stop ∈
        (childrenOf c1tasks 1).map Task.stop ∧
      ∀ e ∈ (childrenOf c1tasks 1).map Task.stop,
        e ≤ (rollup c1tasks (Task.new 1 "P" 100 100)).stop) ∧
    (rollup c1tasks (Task.new 1 "P" 100 100)).progress =
      ((childrenOf c1tasks 1).map (fun c => ((c.stop - c.start : Int) : ℚ) * c.progress)).sum
        / ((((childrenOf c1tasks 1).map (fun c => c.stop - c.start)).sum : Int) : ℚ) ∧
    rollup c1tasks (Task.new 1 "P" 100 100) = rollup c1tasks (Task.new 1 "P" 100 100) :=
  C1_rollup_correct c1tasks c1tasks (List.Perm.refl c1tasks) 0
    (Task.new 1 "P" 100 100) (rollup c1tasks (Task.new 1 "P" 100 100))
    (by decide) rfl (by decide)

/-! Helper lemmas shared by the gesture and app-state claims. -/

theorem reorder_drag_false_20_0 : is_reorder_drag ((20 : ℚ) - 0) ((0 : ℚ) - 0) 30 = false := by
  rw [is_reorder_drag]
  apply decide_eq_false
  rintro ⟨h, -⟩
  simp at h
  norm_num at h

theorem reorder_drag_true_20_25 : is_reorder_drag ((20 : ℚ) - 0) ((25 : ℚ) - 0) 30 = true := by
  rw [is_reorder_drag]
  apply decide_eq_true
  constructor
  · rw [show ((25 : ℚ) - 0) = 25 by norm_num, abs_of_nonneg (by norm_num : (0 : ℚ) ≤ 25)]
    norm_num
  · rw [show ((25 : ℚ) - 0) = 25 by norm_num, show ((20 : ℚ) - 0) = 20 by norm_num,
      abs_of_nonneg (by norm_num : (0 : ℚ) ≤ 25), abs_of_nonneg (by norm_num : (0 : ℚ) ≤ 20)]
    norm_num

theorem mem_of_mem_sort_tasks_grouped {l : List Task} {x : Task}
    (h : x ∈ sort_tasks_grouped l) : x ∈ l := by
  simp only [sort_tasks_grouped] at h
  rcases List.mem_append.mp h with h | h
  · obtain ⟨p, hp, hx⟩ := List.mem_flatMap.mp h
    rcases List.mem_cons.mp hx with rfl | hx
    · exact List.mem_of_mem_filter hp
    · exact List.mem_of_mem_filter hx
  · exact List.mem_of_mem_filter h

theorem head?_push (h : UndoHistory) (ts : List Task) (ds : List Dependency) :
    (h.push ts ds).undoStack.head? = some (Snapshot.mk ts ds) := by
  rw [UndoHistory.push, maxUndoDepth]
  rfl

/-- C2 counterexample: the editor-edit handler of src/src/app.rs applies its
mutation with no undo-history push: a rename through the editor changes the
task sequence while the (empty) undo history stays empty, so this mutating
operation commits without any preceding snapshot. -/
theorem C2_counterexample :
    (editor_edit (AppState.mk [Task.new 1 "A" 0 5] [] (UndoHistory.mk [] []) none) 1
        (fun t => { t with name := "B" })).tasks ≠ [Task.new 1 "A" 0 5] ∧
    (editor_edit (AppState.mk [Task.new 1 "A" 0 5] [] (UndoHistory.mk [] []) none) 1
        (fun t => { t with name := "B" })).history = UndoHistory.mk [] [] := by
  constructor
  · decide
  · rfl

/-- C2 (amended): task creation (dialog and subtask), task deletion,
dependency addition (when it actually adds) and dependency removal each push
the pre-mutation snapshot onto the undo history, and the pushed snapshot is
the state from before the change; but task edits through the editor and chart
drag commits apply their mutation with no push at all. -/
theorem C2_push_ordering (s : AppState) (freshId parentId tid : Nat) (nm : String)
    (d1 d2 today : Int) (ms : Bool) (id df tf : Nat) (dep : Dependency)
    (g : Task → Task) (ts2 : List Task) :
    (create_task_from_dialog s freshId nm d1 d2 ms).history.undoStack.head? =
      some (Snapshot.mk s.tasks s.dependencies) ∧
    (delete_task s id).history.undoStack.head? = some (Snapshot.mk s.tasks s.dependencies) ∧
    (apply_remove_dependency s df tf).history.undoStack.head? =
      some (Snapshot.mk s.tasks s.dependencies) ∧
    (dupPair s.dependencies dep = false →
      (apply_new_dependency s dep).history.undoStack.head? =
          some (Snapshot.mk s.tasks s.dependencies) ∧
        (apply_new_dependency s dep).dependencies = s.dependencies ++ [dep]) ∧
    (dupPair s.dependencies dep = true → apply_new_dependency s dep = s) ∧
    ((s.tasks.find? (fun t => decide (t.id = parentId))).isSome →
      (add_subtask s parentId freshId today).history.undoStack.head? =
        some (Snapshot.mk s.tasks s.dependencies)) ∧
    (editor_edit s tid g).history = s.history ∧
    (chart_changed_commit s ts2).history = s.history := by
  refine ⟨head?_push _ _ _, head?_push _ _ _, head?_push _ _ _, ?_, ?_, ?_, rfl, rfl⟩
  · intro hdup
    have : ¬ (s.dependencies.any (fun d =>
        decide (d.from_task = dep.from_task ∧ d.to_task = dep.to_task)) = true) := by
      rw [show s.dependencies.any (fun d =>
          decide (d.from_task = dep.from_task ∧ d.to_task = dep.to_task)) =
            dupPair s.dependencies dep from rfl, hdup]
      simp
    rw [apply_new_dependency, if_neg this]
    exact ⟨head?_push _ _ _, rfl⟩
  · intro hdup
    have : s.dependencies.any (fun d =>
        decide (d.from_task = dep.from_task ∧ d.to_task = dep.to_task)) = true := hdup
    rw [apply_new_dependency, if_pos this]
  · intro hfind
    obtain ⟨p, hp⟩ := Option.isSome_iff_exists.mp hfind
    rw [add_subtask, hp]
    exact head?_push _ _ _

/-- Concrete one-parent state used to witness C2. -/
def c2state : AppState :=
  AppState.mk [Task.new 1 "P" 0 5] [] (UndoHistory.mk [] []) none

theorem C2_push_ordering_witness :
    (create_task_from_dialog c2state 9 "N" 0 4 false).history.undoStack.head? =
      some (Snapshot.mk c2state.tasks c2state.dependencies) ∧
    (delete_task c2state 1).history.undoStack.head? =
      some (Snapshot.mk c2state.tasks c2state.dependencies) ∧
    (apply_new_dependency c2state (Dependency.mk 1 2 DependencyKind.FinishToStart)).dependencies =
      c2state.dependencies ++ [Dependency.mk 1 2 DependencyKind.FinishToStart] ∧
    apply_new_dependency
        (AppState.mk [] [Dependency.mk 1 2 DependencyKind.FinishToStart]
          (UndoHistory.mk [] []) none)
        (Dependency.mk 1 2 DependencyKind.FinishToStart) =
      AppState.mk [] [Dependency.mk 1 2 DependencyKind.FinishToStart]
        (UndoHistory.mk [] []) none ∧
    (add_subtask c2state 1 9 0).history.undoStack.head? =
      some (Snapshot.mk c2state.tasks c2state.dependencies) ∧
    (editor_edit c2state 1 (fun t => { t with name := "B" })).history = c2state.history := by
  obtain ⟨h1, h2, -, h4, -, h6, h7, -⟩ :=
    C2_push_ordering c2state 9 1 1 "N" 0 4 0 false 1 0 0
      (Dependency.mk 1 2 DependencyKind.FinishToStart) (fun t => { t with name := "B" }) []
  obtain ⟨-, -, -, -, h5, -, -, -⟩ :=
    C2_push_ordering (AppState.mk [] [Dependency.mk 1 2 DependencyKind.FinishToStart]
        (UndoHistory.mk [] []) none) 9 1 1 "N" 0 4 0 false 1 0 0
      (Dependency.mk 1 2 DependencyKind.FinishToStart) id []
  exact ⟨h1, h2, (h4 (by decide)).2, h5 (by decide), h6 (by decide), h7⟩

/-- C3 counterexample: the gesture classifier of src/src/ui/gantt_chart.rs is
re-evaluated on every dragged frame from the cumulative delta, so a drag that
is first classified horizontal (delta 20 right, 0 down, row height 30) is
re-classified vertical one frame later when the pointer has also moved 25
down, contradicting once-per-gesture classification stability. -/
theorem C3_counterexample :
    (moveDragFrame (DragSnapshot.mk 0 5 0 0) 20 0 30 2 40 0 10 3
        (Task.new 1 "A" 0 5)).isReorder = false ∧
    (moveDragFrame (DragSnapshot.mk 0 5 0 0) 20 25 30 2 40 0 10 3
        (Task.new 1 "A" 0 5)).isReorder = true := by
  constructor
  · dsimp only [moveDragFrame]
    rw [reorder_drag_false_20_0]
    rfl
  · dsimp only [moveDragFrame]
    rw [reorder_drag_true_20_25]
    rfl

/-- C3 (amended): the gesture mode is not latched: every dragged frame
recomputes it from the cumulative pointer delta alone with the threshold test
of `is_reorder_drag`, the vertical outcome resolving a target row and the
horizontal outcome rewriting both dates from the snapshot, so a later frame
whose cumulative delta satisfies the other threshold changes the mode. -/
theorem C3_classification_per_frame (snap : DragSnapshot)
    (ptrX ptrY rowH rowPad headerH originY ppd : ℚ) (visCount : Nat) (t : Task) :
    ((moveDragFrame snap ptrX ptrY rowH rowPad headerH originY ppd visCount t).isReorder =
      is_reorder_drag (ptrX - snap.startPointerX) (ptrY - snap.startPointerY) rowH) ∧
    (is_reorder_drag (ptrX - snap.startPointerX) (ptrY - snap.startPointerY) rowH = false →
      moveDragFrame snap ptrX ptrY rowH rowPad headerH originY ppd visCount t =
        MoveFrame.dateEdit { t with
          start := snap.start + drag_days (ptrX - snap.startPointerX) ppd,
          stop := snap.stop + drag_days (ptrX - snap.startPointerX) ppd }) ∧
    (is_reorder_drag (ptrX - snap.startPointerX) (ptrY - snap.startPointerY) rowH = true →
      moveDragFrame snap ptrX ptrY rowH rowPad headerH originY ppd visCount t =
        MoveFrame.reorder
          (row_index_from_pointer_y ptrY originY headerH rowH rowPad visCount)) := by
  cases h : is_reorder_drag (ptrX - snap.startPointerX) (ptrY - snap.startPointerY) rowH <;>
    simp [moveDragFrame, h, MoveFrame.isReorder]

theorem C3_classification_per_frame_witness :
    moveDragFrame (DragSnapshot.mk 0 5 0 0) 20 0 30 2 40 0 10 3 (Task.new 1 "A" 0 5) =
      MoveFrame.dateEdit { Task.new 1 "A" 0 5 with
        start := (0 : Int) + drag_days ((20 : ℚ) - 0) 10,
        stop := (5 : Int) + drag_days ((20 : ℚ) - 0) 10 } ∧
    moveDragFrame (DragSnapshot.mk 0 5 0 0) 20 25 30 2 40 0 10 3 (Task.new 1 "A" 0 5) =
      MoveFrame.reorder (row_index_from_pointer_y 25 0 40 30 2 3) :=
  ⟨(C3_classification_per_frame (DragSnapshot.mk 0 5 0 0) 20 0 30 2 40 0 10 3
      (Task.new 1 "A" 0 5)).2.1 reorder_drag_false_20_0,
   (C3_classification_per_frame (DragSnapshot.mk 0 5 0 0) 20 25 30 2 40 0 10 3
      (Task.new 1 "A" 0 5)).2.2 reorder_drag_true_20_25⟩

/-- C4 counterexample: `Task::new` (src/src/model/task.rs) stores its dates
unclamped, so calling the factory with an end two days before the start
yields a stored task whose end precedes its start. -/
theorem C4_counterexample :
    (Task.new 1 "T" 10 8).stop < (Task.new 1 "T" 10 8).start := by decide

/-- C4 (amended): the dialog creation path clamps (an end earlier than the
start is replaced by start + 7 days), so every task stored by
`create_task_from_dialog` either pre-existed or satisfies start ≤ end; the
left-resize write is clamped unconditionally, and the right-resize, move and
milestone writes keep start ≤ end relative to a gesture snapshot with
start ≤ end; but the bare factory `Task::new` performs no clamping, so a
task constructed directly with end before start is stored inverted. -/
theorem C4_clamping (s : AppState) (freshId : Nat) (nm : String) (d1 d2 : Int)
    (ms : Bool) (snap : DragSnapshot) (ptrX ptrY rowH rowPad headerH originY ppd : ℚ)
    (visCount : Nat) (t u : Task)
    (hsnap : snap.start ≤ snap.stop) (hustart : u.start = snap.start) :
    (∀ x ∈ (create_task_from_dialog s freshId nm d1 d2 ms).tasks,
      x ∈ s.tasks ∨ x.start ≤ x.stop) ∧
    (leftResizeFrame snap ptrX ppd t).start ≤ (leftResizeFrame snap ptrX ppd t).stop ∧
    (rightResizeFrame snap ptrX ppd u).start ≤ (rightResizeFrame snap ptrX ppd u).stop ∧
    (∀ u', moveDragFrame snap ptrX ptrY rowH rowPad headerH originY ppd visCount u =
      MoveFrame.dateEdit u' → u'.start ≤ u'.stop) ∧
    (∀ u', milestoneDragFrame snap ptrX ptrY rowH rowPad headerH originY ppd visCount u =
      MoveFrame.dateEdit u' → u'.start = u'.stop) := by
  refine ⟨?_, ?_, ?_, ?_, ?_⟩
  · intro x hx
    have hx' : x ∈ s.tasks ++ [if ms then Task.new_milestone freshId
        (if nm = "" then defaultTaskName else nm) d1
      else Task.new freshId (if nm = "" then defaultTaskName else nm) d1
        (if d1 ≤ d2 then d2 else d1 + 7)] := by
      have := mem_of_mem_sort_tasks_grouped (l := s.tasks ++ [if ms then
          Task.new_milestone freshId (if nm = "" then defaultTaskName else nm) d1
        else Task.new freshId (if nm = "" then defaultTaskName else nm) d1
          (if d1 ≤ d2 then d2 else d1 + 7)]) (x := x) ?_
      · exact this
      · exact hx
    rcases List.mem_append.mp hx' with hmem | hmem
    · exact Or.inl hmem
    · right
      rcases List.mem_singleton.mp hmem with rfl
      by_cases hms : ms
      · simp [hms, Task.new_milestone]
      · by_cases hd : d1 ≤ d2
        · simp [hms, hd, Task.new]
        · simp [hms, hd, Task.new]
  · dsimp only [leftResizeFrame]
    exact le_trans (min_le_right _ _) (le_max_left _ _)
  · dsimp only [rightResizeFrame]
    rw [hustart]
    exact le_max_right _ _
  · intro u' h
    dsimp only [moveDragFrame] at h
    cases hcl : is_reorder_drag (ptrX - snap.startPointerX) (ptrY - snap.startPointerY) rowH
    · rw [hcl] at h
      simp only [Bool.false_eq_true, if_false, MoveFrame.dateEdit.injEq] at h
      subst h
      simpa using hsnap
    · rw [hcl] at h
      simp at h
  · intro u' h
    dsimp only [milestoneDragFrame] at h
    cases hcl : is_reorder_drag (ptrX - snap.startPointerX) (ptrY - snap.startPointerY) rowH
    · rw [hcl] at h
      simp only [Bool.false_eq_true, if_false, MoveFrame.dateEdit.injEq] at h
      subst h
      rfl
    · rw [hcl] at h
      simp at h

theorem C4_clamping_witness :
    (∀ x ∈ (create_task_from_dialog c2state 9 "N" 10 8 false).tasks,
      x ∈ c2state.tasks ∨ x.start ≤ x.stop) ∧
    (leftResizeFrame (DragSnapshot.mk 0 5 0 0) 20 10 (Task.new 1 "A" 0 5)).start ≤
      (leftResizeFrame (DragSnapshot.mk 0 5 0 0) 20 10 (Task.new 1 "A" 0 5)).stop ∧
    (rightResizeFrame (DragSnapshot.mk 0 5 0 0) 20 10 (Task.new 1 "A" 0 5)).start ≤
      (rightResizeFrame (DragSnapshot.mk 0 5 0 0) 20 10 (Task.new 1 "A" 0 5)).stop ∧
    (∀ u', moveDragFrame (DragSnapshot.mk 0 5 0 0) 20 0 30 2 40 0 10 3 (Task.new 1 "A" 0 5) =
      MoveFrame.dateEdit u' → u'.start ≤ u'.stop) ∧
    (∀ u', milestoneDragFrame (DragSnapshot.mk 0 5 0 0) 20 0 30 2 40 0 10 3
      (Task.new 1 "A" 0 5) = MoveFrame.dateEdit u' → u'.start = u'.stop) :=
  C4_clamping c2state 9 "N" 10 8 false (DragSnapshot.mk 0 5 0 0) 20 0 30 2 40 0 10 3
    (Task.new 1 "A" 0 5) (Task.new 1 "A" 0 5) (by decide) rfl

/-- C5: a horizontal move-handle frame rewrites both dates from the gesture
snapshot, shifted by the same whole-day delta round(delta_x per day), so the
duration is unchanged, and a delta of exactly three days' worth of pixels
shifts by three days. -/
theorem C5_move_whole_day_shift (snap : DragSnapshot)
    (ptrX ptrY rowH rowPad headerH originY ppd : ℚ) (visCount : Nat) (t : Task)
    (hclass : is_reorder_drag (ptrX - snap.startPointerX) (ptrY - snap.startPointerY)
      rowH = false) :
    moveDragFrame snap ptrX ptrY rowH rowPad headerH originY ppd visCount t =
      MoveFrame.dateEdit { t with
        start := snap.start + drag_days (ptrX - snap.startPointerX) ppd,
        stop := snap.stop + drag_days (ptrX - snap.startPointerX) ppd } ∧
    (∀ u', moveDragFrame snap ptrX ptrY rowH rowPad headerH originY ppd visCount t =
      MoveFrame.dateEdit u' → u'.stop - u'.start = snap.stop - snap.start) ∧
    (0 < ppd → drag_days (3 * ppd) ppd = 3) := by
  have hmain : moveDragFrame snap ptrX ptrY rowH rowPad headerH originY ppd visCount t =
      MoveFrame.dateEdit { t with
        start := snap.start + drag_days (ptrX - snap.startPointerX) ppd,
        stop := snap.stop + drag_days (ptrX - snap.startPointerX) ppd } := by
    dsimp only [moveDragFrame]
    rw [hclass]
    rfl
  refine ⟨hmain, ?_, ?_⟩
  · intro u' h
    rw [hmain, MoveFrame.dateEdit.injEq] at h
    subst h
    simp
  · intro hp
    rw [drag_days, mul_div_cancel_right₀ 3 (ne_of_gt hp), rustRound,
      if_pos (by norm_num : (0 : ℚ) ≤ 3)]
    norm_num

theorem C5_move_whole_day_shift_witness :
    moveDragFrame (DragSnapshot.mk 0 5 0 0) 20 0 30 2 40 0 10 3 (Task.new 1 "A" 0 5) =
      MoveFrame.dateEdit { Task.new 1 "A" 0 5 with
        start := (0 : Int) + drag_days ((20 : ℚ) - 0) 10,
        stop := (5 : Int) + drag_days ((20 : ℚ) - 0) 10 } ∧
    (∀ u', moveDragFrame (DragSnapshot.mk 0 5 0 0) 20 0 30 2 40 0 10 3 (Task.new 1 "A" 0 5) =
      MoveFrame.dateEdit u' → u'.stop - u'.start = (5 : Int) - 0) ∧
    (0 < (10 : ℚ) → drag_days (3 * 10) 10 = 3) :=
  C5_move_whole_day_shift (DragSnapshot.mk 0 5 0 0) 20 0 30 2 40 0 10 3 (Task.new 1 "A" 0 5)
    reorder_drag_false_20_0

/-- C6: a left-resize frame moves only the start (shifted from the snapshot
by the whole-day delta and clamped at the snapshot end, so it saturates
there) while the end stays at the snapshot end; a right-resize frame moves
only the end (clamped at the snapshot start) while the start stays put. -/
theorem C6_resize_clamps (snap : DragSnapshot) (ptrX ppd : ℚ) (t u : Task)
    (hustart : u.start = snap.start) :
    (leftResizeFrame snap ptrX ppd t).stop = snap.stop ∧
    (leftResizeFrame snap ptrX ppd t).start =
      min (snap.start + drag_days (ptrX - snap.startPointerX) ppd) snap.stop ∧
    (leftResizeFrame snap ptrX ppd t).start ≤ (leftResizeFrame snap ptrX ppd t).stop ∧
    (rightResizeFrame snap ptrX ppd u).start = snap.start ∧
    (rightResizeFrame snap ptrX ppd u).stop =
      max (snap.stop + drag_days (ptrX - snap.startPointerX) ppd) snap.start ∧
    (rightResizeFrame snap ptrX ppd u).start ≤ (rightResizeFrame snap ptrX ppd u).stop := by
  refine ⟨?_, rfl, ?_, ?_, rfl, ?_⟩
  · dsimp only [leftResizeFrame]
    exact max_eq_left (min_le_right _ _)
  · dsimp only [leftResizeFrame]
    exact le_trans (min_le_right _ _) (le_max_left _ _)
  · exact hustart
  · dsimp only [rightResizeFrame]
    rw [hustart]
    exact le_max_right _ _

theorem C6_resize_clamps_witness :
    (leftResizeFrame (DragSnapshot.mk 0 5 0 0) 20 10 (Task.new 1 "A" 0 5)).stop = 5 ∧
    (leftResizeFrame (DragSnapshot.mk 0 5 0 0) 20 10 (Task.new 1 "A" 0 5)).start =
      min ((0 : Int) + drag_days ((20 : ℚ) - 0) 10) 5 ∧
    (leftResizeFrame (DragSnapshot.mk 0 5 0 0) 20 10 (Task.new 1 "A" 0 5)).start ≤
      (leftResizeFrame (DragSnapshot.mk 0 5 0 0) 20 10 (Task.new 1 "A" 0 5)).stop ∧
    (rightResizeFrame (DragSnapshot.mk 0 5 0 0) 20 10 (Task.new 1 "A" 0 5)).start = 0 ∧
    (rightResizeFrame (DragSnapshot.mk 0 5 0 0) 20 10 (Task.new 1 "A" 0 5)).stop =
      max ((5 : Int) + drag_days ((20 : ℚ) - 0) 10) 0 ∧
    (rightResizeFrame (DragSnapshot.mk 0 5 0 0) 20 10 (Task.new 1 "A" 0 5)).start ≤
      (rightResizeFrame (DragSnapshot.mk 0 5 0 0) 20 10 (Task.new 1 "A" 0 5)).stop :=
  C6_resize_clamps (DragSnapshot.mk 0 5 0 0) 20 10 (Task.new 1 "A" 0 5)
    (Task.new 1 "A" 0 5) rfl

/-! Helper facts about the concrete routing inputs used in witnesses. -/

theorem c7_rows_differ : (1 : ℚ) ≤ |(0 : ℚ) - 30| := by
  rw [show ((0 : ℚ) - 30) = -30 by norm_num, abs_neg,
    abs_of_nonneg (by norm_num : (0 : ℚ) ≤ 30)]
  norm_num

theorem c7_same_row : |(0 : ℚ) - 0| < 1 := by
  rw [sub_self, abs_zero]
  norm_num

theorem c7_forward : (0 : ℚ) + 10 ≤ 40 - 10 := by norm_num

theorem c7_overlap : (30 : ℚ) - 10 < 50 + 10 := by norm_num

theorem c7_two_days : (50 : ℚ) = 30 + 2 * 10 := by norm_num

theorem c7_ppd_pos : (0 : ℚ) < 10 := by norm_num

/-- C7: FinishToStart routing (src/src/ui/gantt_chart.rs,
`dependency_route_points`) with exit point e, enter point n and the 10-pixel
stub: with no horizontal stub overlap and rows at least 1 pixel apart the
route is the orthogonal 4-point path; with stub overlap it runs through the
gutter lane at the vertical midpoint of the two rows (or a lane 8 pixels
below the row when the rows coincide); with no overlap and coinciding rows it
is the single straight segment; and in particular an exit lying two positive
days of pixels to the right of the enter always takes the gutter path. -/
theorem C7_fs_routing (e n : P) :
    (e.x + 10 ≤ n.x - 10 → 1 ≤ |e.y - n.y| →
      dependency_route_points e n DependencyKind.FinishToStart =
        [e, P.mk (e.x + 10) e.y, P.mk (e.x + 10) n.y, n]) ∧
    (e.x + 10 ≤ n.x - 10 → |e.y - n.y| < 1 →
      dependency_route_points e n DependencyKind.FinishToStart = [e, n]) ∧
    (n.x - 10 < e.x + 10 → 1 ≤ |e.y - n.y| →
      dependency_route_points e n DependencyKind.FinishToStart =
        [e, P.mk (e.x + 10) e.y, P.mk (e.x + 10) ((e.y + n.y) / 2),
         P.mk (n.x - 10) ((e.y + n.y) / 2), P.mk (n.x - 10) n.y, n]) ∧
    (n.x - 10 < e.x + 10 → |e.y - n.y| < 1 →
      dependency_route_points e n DependencyKind.FinishToStart =
        [e, P.mk (e.x + 10) e.y, P.mk (e.x + 10) (e.y + 8),
         P.mk (n.x - 10) (e.y + 8), P.mk (n.x - 10) n.y, n]) ∧
    (∀ ppd : ℚ, 0 < ppd → e.x = n.x + 2 * ppd → 1 ≤ |e.y - n.y| →
      dependency_route_points e n DependencyKind.FinishToStart =
        [e, P.mk (e.x + 10) e.y, P.mk (e.x + 10) ((e.y + n.y) / 2),
         P.mk (n.x - 10) ((e.y + n.y) / 2), P.mk (n.x - 10) n.y, n]) := by
  have h3 : ∀ (_ : n.x - 10 < e.x + 10) (_ : 1 ≤ |e.y - n.y|),
      dependency_route_points e n DependencyKind.FinishToStart =
        [e, P.mk (e.x + 10) e.y, P.mk (e.x + 10) ((e.y + n.y) / 2),
         P.mk (n.x - 10) ((e.y + n.y) / 2), P.mk (n.x - 10) n.y, n] := by
    intro hb hy
    simp only [dependency_route_points, STUB]
    rw [if_neg (not_le.mpr hb), if_neg (not_lt.mpr hy)]
  refine ⟨?_, ?_, h3, ?_, ?_⟩
  · intro h1 hy
    simp only [dependency_route_points, STUB]
    rw [if_pos h1, if_neg (not_lt.mpr hy)]
  · intro h1 hy
    simp only [dependency_route_points, STUB]
    rw [if_pos h1, if_pos hy]
  · intro hb hy
    simp only [dependency_route_points, STUB]
    rw [if_neg (not_le.mpr hb), if_pos hy]
  · intro ppd hppd hex hy
    refine h3 ?_ hy
    rw [hex]
    linarith

theorem C7_fs_routing_witness :
    dependency_route_points (P.mk 0 0) (P.mk 40 30) DependencyKind.FinishToStart =
      [P.mk 0 0, P.mk ((0 : ℚ) + 10) 0, P.mk ((0 : ℚ) + 10) 30, P.mk 40 30] ∧
    dependency_route_points (P.mk 0 0) (P.mk 40 0) DependencyKind.FinishToStart =
      [P.mk 0 0, P.mk 40 0] ∧
    dependency_route_points (P.mk 50 0) (P.mk 30 30) DependencyKind.FinishToStart =
      [P.mk 50 0, P.mk ((50 : ℚ) + 10) 0, P.mk ((50 : ℚ) + 10) (((0 : ℚ) + 30) / 2),
       P.mk ((30 : ℚ) - 10) (((0 : ℚ) + 30) / 2), P.mk ((30 : ℚ) - 10) 30, P.mk 30 30] ∧
    dependency_route_points (P.mk 50 0) (P.mk 30 0) DependencyKind.FinishToStart =
      [P.mk 50 0, P.mk ((50 : ℚ) + 10) 0, P.mk ((50 : ℚ) + 10) ((0 : ℚ) + 8),
       P.mk ((30 : ℚ) - 10) ((0 : ℚ) + 8), P.mk ((30 : ℚ) - 10) 0, P.mk 30 0] :=
  ⟨(C7_fs_routing (P.mk 0 0) (P.mk 40 30)).1 c7_forward c7_rows_differ,
   (C7_fs_routing (P.mk 0 0) (P.mk 40 0)).2.1 c7_forward c7_same_row,
   (C7_fs_routing (P.mk 50 0) (P.mk 30 30)).2.2.2.2 10 c7_ppd_pos c7_two_days c7_rows_differ,
   (C7_fs_routing (P.mk 50 0) (P.mk 30 0)).2.2.2.1 c7_overlap c7_same_row⟩

/-- C8: on link-drag release (src/src/ui/gantt_chart.rs together with the
app's duplicate check), a dependency is produced exactly when some task other
than the origin has its bar under the pointer; any produced dependency is
FinishToStart from the origin to that hit task and can never be a self-link;
it is appended exactly when no dependency with the same ordered pair exists,
and in every other case the dependency list is unchanged; the transient link
state is always discarded on release. -/
theorem C8_link_release (tasks : List Task) (positions : Nat → Option Rect)
    (st : LinkDragState) (ptr : P) (deps : List Dependency) :
    ((link_release_dependency tasks positions st ptr).isSome ↔
      ∃ t ∈ tasks, t.id ≠ st.from_task ∧ overBar positions t.id ptr = true) ∧
    (∀ dep, link_release_dependency tasks positions st ptr = some dep →
      dep.from_task = st.from_task ∧ dep.kind = DependencyKind.FinishToStart ∧
      dep.to_task ≠ dep.from_task ∧ overBar positions dep.to_task ptr = true) ∧
    (∀ dep, link_release_dependency tasks positions st ptr = some dep →
      dupPair deps dep = false →
      link_release_apply tasks positions st ptr deps = deps ++ [dep]) ∧
    (∀ dep, link_release_dependency tasks positions st ptr = some dep →
      dupPair deps dep = true →
      link_release_apply tasks positions st ptr deps = deps) ∧
    (link_release_dependency tasks positions st ptr = none →
      link_release_apply tasks positions st ptr deps = deps) ∧
    (on_primary_released tasks positions (some st) (some ptr) deps).2 = none := by
  refine ⟨?_, ?_, ?_, ?_, ?_, rfl⟩
  · rw [link_release_dependency, Option.isSome_map', List.find?_isSome]
    constructor
    · rintro ⟨t, ht, hp⟩
      rw [Bool.and_eq_true, decide_eq_true_iff] at hp
      exact ⟨t, ht, hp.1, hp.2⟩
    · rintro ⟨t, ht, h1, h2⟩
      exact ⟨t, ht, by rw [Bool.and_eq_true, decide_eq_true_iff]; exact ⟨h1, h2⟩⟩
  · intro dep h
    rw [link_release_dependency, Option.map_eq_some'] at h
    obtain ⟨t0, hfind, rfl⟩ := h
    have hp := List.find?_some hfind
    rw [Bool.and_eq_true, decide_eq_true_iff] at hp
    exact ⟨rfl, rfl, hp.1, hp.2⟩
  · intro dep h hdup
    rw [link_release_apply, h]
    dsimp only
    rw [hdup]
    simp
  · intro dep h hdup
    rw [link_release_apply, h]
    dsimp only
    rw [hdup]
    simp
  · intro h
    rw [link_release_apply, h]

/-- Two bars used to witness C8: the origin task's bar on the right, the
target task's bar around the origin-side pointer. -/
def c8tasks : List Task := [Task.new 1 "A" 0 5, Task.new 2 "B" 0 5]

/-- Bar rectangles for `c8tasks`: task 1 occupies x 20..30, task 2 x 0..10,
both y 0..10. -/
def c8pos : Nat → Option Rect := fun tid =>
  if tid = 1 then some (Rect.mk 20 0 30 10)
  else if tid = 2 then some (Rect.mk 0 0 10 10) else none

theorem C8_link_release_witness :
    link_release_apply c8tasks c8pos (LinkDragState.mk 1) (P.mk 5 5) [] =
      [] ++ [Dependency.mk 1 2 DependencyKind.FinishToStart] ∧
    (Dependency.mk 1 2 DependencyKind.FinishToStart).to_task ≠
      (Dependency.mk 1 2 DependencyKind.FinishToStart).from_task ∧
    link_release_apply c8tasks c8pos (LinkDragState.mk 1) (P.mk 5 5)
        [Dependency.mk 1 2 DependencyKind.FinishToStart] =
      [Dependency.mk 1 2 DependencyKind.FinishToStart] ∧
    link_release_apply c8tasks c8pos (LinkDragState.mk 1) (P.mk 50 50) [] = [] ∧
    (on_primary_released c8tasks c8pos (some (LinkDragState.mk 1))
      (some (P.mk 5 5)) []).2 = none :=
  ⟨(C8_link_release c8tasks c8pos (LinkDragState.mk 1) (P.mk 5 5) []).2.2.1
      (Dependency.mk 1 2 DependencyKind.FinishToStart) (by decide) (by decide),
   ((C8_link_release c8tasks c8pos (LinkDragState.mk 1) (P.mk 5 5) []).2.1
      (Dependency.mk 1 2 DependencyKind.FinishToStart) (by decide)).2.2.1,
   (C8_link_release c8tasks c8pos (LinkDragState.mk 1) (P.mk 5 5)
      [Dependency.mk 1 2 DependencyKind.FinishToStart]).2.2.2.1
      (Dependency.mk 1 2 DependencyKind.FinishToStart) (by decide) (by decide),
   (C8_link_release c8tasks c8pos (LinkDragState.mk 1) (P.mk 50 50) []).2.2.2.2.1
      (by decide),
   (C8_link_release c8tasks c8pos (LinkDragState.mk 1) (P.mk 5 5) []).2.2.2.2.2⟩

/-! Helper lemmas for the cascade-delete claims. -/

theorem rollup_id (ts : List Task) (t : Task) : (rollup ts t).id = t.id := by
  rw [rollup]
  split <;> rfl

theorem rollup_parentId (ts : List Task) (t : Task) :
    (rollup ts t).parentId = t.parentId := by
  rw [rollup]
  split <;> rfl

theorem recalc_map_id (ts : List Task) :
    (recalculate_parent_dates ts).map Task.id = ts.map Task.id := by
  rw [recalculate_parent_dates, List.map_map]
  exact List.map_congr_left (fun u _ => rollup_id ts u)

theorem delete_children_ids_eq {ts : List Task} {id : Nat}
    (h : id ∈ ts.map Task.id) :
    delete_children_ids ts id =
      (ts.filter (fun c => decide (c.parentId = some id))).map Task.id := by
  obtain ⟨p, hp, hpid⟩ := List.mem_map.mp h
  obtain ⟨q, hq⟩ : ∃ q, ts.find? (fun t => decide (t.id = id)) = some q := by
    rw [← Option.isSome_iff_exists, List.find?_isSome]
    exact ⟨p, hp, by simp [hpid]⟩
  have hqid : q.id = id := by simpa using List.find?_some hq
  rw [delete_children_ids, hq]
  simp [Task.children_ids, hqid]

theorem survives_delete {ts : List Task} {x id : Nat} (hx : x ∈ ts.map Task.id)
    (hne : x ≠ id)
    (hnc : x ∉ (ts.filter (fun c => decide (c.parentId = some id))).map Task.id) :
    x ∈ (ts.filter (fun t => decide (t.id ≠ id ∧ t.parentId ≠ some id))).map Task.id := by
  obtain ⟨u, hu, rfl⟩ := List.mem_map.mp hx
  refine List.mem_map.mpr ⟨u, List.mem_filter.mpr ⟨hu, decide_eq_true ⟨hne, ?_⟩⟩, rfl⟩
  intro hp
  exact hnc (List.mem_map.mpr ⟨u, List.mem_filter.mpr ⟨hu, decide_eq_true hp⟩, rfl⟩)

/-- C9: deleting a present task id removes that task and every direct child
from the task sequence (and nothing else, up to the rollup rewrite), removes
exactly the dependencies touching the task or one of its children, and — when
every dependency endpoint was a live task id — leaves no dependency
referencing a task that is no longer in the sequence. -/
theorem C9_delete_cascade (s : AppState) (id : Nat) (hid : id ∈ s.tasks.map Task.id) :
    (∀ t ∈ (delete_task s id).tasks, t.id ≠ id ∧ t.parentId ≠ some id) ∧
    (delete_task s id).tasks.map Task.id =
      (s.tasks.filter (fun t => decide (t.id ≠ id ∧ t.parentId ≠ some id))).map Task.id ∧
    (delete_task s id).dependencies = s.dependencies.filter (fun d =>
      decide (d.from_task ≠ id ∧ d.to_task ≠ id ∧
        d.from_task ∉ (s.tasks.filter (fun c => decide (c.parentId = some id))).map Task.id ∧
        d.to_task ∉ (s.tasks.filter (fun c => decide (c.parentId = some id))).map Task.id)) ∧
    ((∀ d ∈ s.dependencies, d.from_task ∈ s.tasks.map Task.id ∧
        d.to_task ∈ s.tasks.map Task.id) →
      ∀ d ∈ (delete_task s id).dependencies,
        d.from_task ∈ (delete_task s id).tasks.map Task.id ∧
        d.to_task ∈ (delete_task s id).tasks.map Task.id) := by
  have hdeps : (delete_task s id).dependencies = s.dependencies.filter (fun d =>
      decide (d.from_task ≠ id ∧ d.to_task ≠ id ∧
        d.from_task ∉ (s.tasks.filter (fun c => decide (c.parentId = some id))).map Task.id ∧
        d.to_task ∉ (s.tasks.filter (fun c => decide (c.parentId = some id))).map Task.id)) := by
    dsimp only [delete_task]
    rw [delete_children_ids_eq hid]
  have htasks : (delete_task s id).tasks.map Task.id =
      (s.tasks.filter (fun t => decide (t.id ≠ id ∧ t.parentId ≠ some id))).map Task.id := by
    dsimp only [delete_task]
    exact recalc_map_id _
  refine ⟨?_, htasks, hdeps, ?_⟩
  · intro t ht
    dsimp only [delete_task] at ht
    rw [recalculate_parent_dates] at ht
    obtain ⟨u, hu, rfl⟩ := List.mem_map.mp ht
    have hpred := List.of_mem_filter hu
    rw [decide_eq_true_iff] at hpred
    rw [rollup_id, rollup_parentId]
    exact hpred
  · intro hwf d hd
    rw [hdeps] at hd
    have hmem := List.mem_of_mem_filter hd
    have hpred := List.of_mem_filter hd
    rw [decide_eq_true_iff] at hpred
    obtain ⟨h1, h2, h3, h4⟩ := hpred
    obtain ⟨hf, ht⟩ := hwf d hmem
    rw [htasks]
    exact ⟨survives_delete hf h1 h3, survives_delete ht h2 h4⟩

/-- Concrete four-task project used to witness C9: parent 1 with child 2,
free tasks 3 and 4, one dependency touching the child and one between the
free tasks. -/
def c9state : AppState :=
  AppState.mk
    [Task.new 1 "P" 0 9, { Task.new 2 "C" 0 9 with parentId := some 1 },
     Task.new 3 "T" 0 9, Task.new 4 "U" 0 9]
    [Dependency.mk 2 3 DependencyKind.FinishToStart,
     Dependency.mk 3 4 DependencyKind.FinishToStart]
    (UndoHistory.mk [] []) (some 2)

theorem C9_delete_cascade_witness :
    (∀ t ∈ (delete_task c9state 1).tasks, t.id ≠ 1 ∧ t.parentId ≠ some 1) ∧
    (delete_task c9state 1).tasks.map Task.id =
      (c9state.tasks.filter (fun t => decide (t.id ≠ 1 ∧ t.parentId ≠ some 1))).map Task.id ∧
    (delete_task c9state 1).dependencies = c9state.dependencies.filter (fun d =>
      decide (d.from_task ≠ 1 ∧ d.to_task ≠ 1 ∧
        d.from_task ∉ (c9state.tasks.filter
          (fun c => decide (c.parentId = some 1))).map Task.id ∧
        d.to_task ∉ (c9state.tasks.filter
          (fun c => decide (c.parentId = some 1))).map Task.id)) ∧
    (∀ d ∈ (delete_task c9state 1).dependencies,
      d.from_task ∈ (delete_task c9state 1).tasks.map Task.id ∧
      d.to_task ∈ (delete_task c9state 1).tasks.map Task.id) := by
  obtain ⟨a, b, c, d⟩ := C9_delete_cascade c9state 1 (by decide)
  exact ⟨a, b, c, d (by decide)⟩

/-- C10: after `delete_task`, a selection that pointed at the deleted task or
at one of its children is cleared to `none`. -/
theorem C10_selection_cleared (s : AppState) (id : Nat)
    (hid : id ∈ s.tasks.map Task.id)
    (hsel : s.selected = some id ∨
      ∃ c ∈ s.tasks, c.parentId = some id ∧ s.selected = some c.id) :
    (delete_task s id).selected = none := by
  have hcond : s.selected = some id ∨
      (s.selected.getD nilId) ∈ delete_children_ids s.tasks id := by
    rcases hsel with h | ⟨c, hc, hcp, hs⟩
    · exact Or.inl h
    · right
      rw [hs, Option.getD_some, delete_children_ids_eq hid]
      exact List.mem_map.mpr ⟨c, List.mem_filter.mpr ⟨hc, decide_eq_true hcp⟩, rfl⟩
  dsimp only [delete_task]
  rw [if_pos hcond]

theorem C10_selection_cleared_witness : (delete_task c9state 1).selected = none :=
  C10_selection_cleared c9state 1 (by decide) (by decide)

end Gantt
